import Mathlib

/-!
Verification of the configuration utility and entry point of the
zen-mcp-server repository fragment.

The repository ships two Python files: the package init module with the
entry point main_entry, and a unit-test module exercising two functions,
load_config_file and apply_config, that live in a server module the
fragment does not include.  The entry point is embedded directly from the
source; the two configuration functions are modelled from the design
specification, as marked on each definition.

Environment variables are modelled as an association list from names to
values, looked up front to back; the file system and the JSON parser are
modelled as explicit inputs.
-/

namespace ZenMCP

/-- Process environment: an association list from variable names to values. -/
abbrev Env := List (String × String)

/-- Look a variable up in the environment, front to back. -/
def lookupEnv : Env → String → Option String
  | [], _ => none
  | (k, v) :: rest, key => if k = key then some v else lookupEnv rest key

/-- Modelled from the spec: set an environment variable only if it is not
already present, the merge step both configuration sections use
(set it only if not already present in the environment). -/
def setEnvIfAbsent (env : Env) (key val : String) : Env :=
  if (lookupEnv env key).isSome then env else (key, val) :: env

/-- Modelled from the spec: a configuration mapping with two optional
top-level sections.  The api_keys section maps provider names to an API
key string or null (None); the settings section maps setting names to
string values.  Sections are association lists, mirroring the ordered
JSON objects the Python json module produces. -/
structure Config where
  api_keys : Option (List (String × Option String))
  settings : Option (List (String × String))

/-- Uppercase transform applied to configuration keys: map the standard
character uppercasing over the characters of the string. -/
def upper (s : String) : String :=
  ⟨s.data.map Char.toUpper⟩

/-- Environment variable name targeted by an api_keys entry:
uppercase of the provider name followed by the _API_KEY suffix. -/
def apiKeyEnvName (provider : String) : String :=
  upper provider ++ "_API_KEY"

/-- Modelled from the spec: process the api_keys section in order.  A
non-null value is written to its target variable only if that variable is
absent; null values are skipped silently. -/
def applyApiKeys : List (String × Option String) → Env → Env
  | [], env => env
  | (_, none) :: rest, env => applyApiKeys rest env
  | (p, some v) :: rest, env => applyApiKeys rest (setEnvIfAbsent env (apiKeyEnvName p) v)

/-- Modelled from the spec: process the settings section in order.  Each
value is written to the uppercase of its key, only if absent. -/
def applySettings : List (String × String) → Env → Env
  | [], env => env
  | (k, v) :: rest, env => applySettings rest (setEnvIfAbsent env (upper k) v)

/-- Modelled from the spec: apply_config of the missing server module.
Given a configuration mapping, merge the api_keys section and then the
settings section into the environment, never overriding present values;
a missing section contributes nothing. -/
def apply_config (config : Config) (env : Env) : Env :=
  applySettings (config.settings.getD []) (applyApiKeys (config.api_keys.getD []) env)

/-- JSON values, the result type of parsing a configuration file. -/
inductive Json where
  | null
  | bool (b : Bool)
  | num (n : Int)
  | str (s : String)
  | arr (elems : List Json)
  | obj (members : List (String × Json))

/-- Outcome of attempting to read a configuration file from disk. -/
inductive ReadResult where
  | missing
  | unreadable
  | content (s : String)

/-- Modelled from the spec: load_config_file of the missing server module.
The file system and the standard JSON parser are outside the fragment, so
the read outcome is an explicit input and the parser an explicit function
returning none on syntactically invalid text.  A missing file, an
unreadable file, or invalid JSON degrades to the empty mapping; valid
JSON is returned exactly as parsed, with no validation or transformation. -/
def load_config_file (parse : String → Option Json) : ReadResult → Json
  | .missing => .obj []
  | .unreadable => .obj []
  | .content s =>
    match parse s with
    | none => .obj []
    | some j => j

/-- Embedded from main_entry in src/zen_mcp_server/init: insert the parent
directory at index 0 of the module search path only when it is not already
present. -/
def updateSysPath (sysPath : List String) (parentDir : String) : List String :=
  if parentDir ∈ sysPath then sysPath else parentDir :: sysPath

/-- Result of importing the server module, an external collaborator. -/
inductive ImportResult where
  | success
  | failure (msg : String)

/-- Outcome of running the external asynchronous main routine. -/
inductive RunOutcome where
  | normal
  | keyboardInterrupt
  | importError (msg : String)
  | raised (msg : String)

/-- Observable result of main_entry: a process exit with a status code and
the lines printed to standard output, or an exception propagating uncaught. -/
inductive EntryResult where
  | exitCode (code : Nat) (stdoutLines : List String)
  | uncaught (msg : String)

/-- Embedded from main_entry: the four diagnostic lines printed when an
ImportError is caught, including the module search path and the current
working directory. -/
def importErrorDiagnostics (msg : String) (sysPath : List String) (cwd : String) : List String :=
  ["Error importing server module: " ++ msg,
   "This might indicate a packaging issue or missing dependencies.",
   "Python path: " ++ String.intercalate ", " sysPath,
   "Current working directory: " ++ cwd]

/-- Embedded from main_entry in src/zen_mcp_server/init.  The body first
extends the module search path, then imports the server module and runs its
main routine; KeyboardInterrupt anywhere in the body is swallowed and the
function returns normally (process exit 0), ImportError anywhere in the
body prints the diagnostics and exits with status 1, and any other
exception propagates uncaught.  The import result and the run outcome are
explicit inputs standing for the external collaborators. -/
def main_entry (sysPath : List String) (parentDir cwd : String)
    (importServer : ImportResult) (run : RunOutcome) : List String × EntryResult :=
  let sp := updateSysPath sysPath parentDir
  match importServer with
  | .failure msg => (sp, .exitCode 1 (importErrorDiagnostics msg sp cwd))
  | .success =>
    match run with
    | .normal => (sp, .exitCode 0 [])
    | .keyboardInterrupt => (sp, .exitCode 0 [])
    | .importError msg => (sp, .exitCode 1 (importErrorDiagnostics msg sp cwd))
    | .raised msg => (sp, .uncaught msg)

/-! Helper lemmas about environment lookup and the conditional write. -/

theorem setEnvIfAbsent_of_isSome {env : Env} {k : String} (v : String)
    (h : (lookupEnv env k).isSome) :
    setEnvIfAbsent env k v = env := by
  rw [setEnvIfAbsent, if_pos h]

theorem lookupEnv_setEnvIfAbsent_some {env : Env} {key x : String} (k v : String)
    (h : lookupEnv env key = some x) :
    lookupEnv (setEnvIfAbsent env k v) key = some x := by
  rw [setEnvIfAbsent]
  split
  · exact h
  · rename_i hk
    rw [lookupEnv]
    by_cases hkey : k = key
    · subst hkey
      rw [h] at hk
      simp at hk
    · rw [if_neg hkey]
      exact h

theorem lookupEnv_setEnvIfAbsent_self {env : Env} (k v : String) :
    (lookupEnv (setEnvIfAbsent env k v) k).isSome := by
  rw [setEnvIfAbsent]
  split
  · assumption
  · rw [lookupEnv, if_pos rfl]
    rfl

theorem lookupEnv_setEnvIfAbsent_ne {env : Env} {k key : String} (v : String)
    (hne : k ≠ key) (h : lookupEnv env key = none) :
    lookupEnv (setEnvIfAbsent env k v) key = none := by
  rw [setEnvIfAbsent]
  split
  · exact h
  · rw [lookupEnv, if_neg hne]
    exact h

theorem lookupEnv_setEnvIfAbsent_absent {env : Env} {k : String} (v : String)
    (h : lookupEnv env k = none) :
    lookupEnv (setEnvIfAbsent env k v) k = some v := by
  simp [setEnvIfAbsent, h, lookupEnv]

/-! Helper lemmas about the api_keys pass. -/

theorem applyApiKeys_lookup_some {ks : List (String × Option String)} {env : Env}
    {key x : String} (h : lookupEnv env key = some x) :
    lookupEnv (applyApiKeys ks env) key = some x := by
  induction ks generalizing env with
  | nil => exact h
  | cons kv rest ih =>
    obtain ⟨p, ov⟩ := kv
    cases ov with
    | none =>
      simp only [applyApiKeys]
      exact ih h
    | some v =>
      simp only [applyApiKeys]
      exact ih (lookupEnv_setEnvIfAbsent_some _ _ h)

theorem applyApiKeys_isSome {ks : List (String × Option String)} {env : Env}
    {key : String} (h : (lookupEnv env key).isSome) :
    (lookupEnv (applyApiKeys ks env) key).isSome := by
  obtain ⟨x, hx⟩ := Option.isSome_iff_exists.mp h
  rw [applyApiKeys_lookup_some hx]
  rfl

theorem applyApiKeys_mem_isSome {ks : List (String × Option String)} {p v : String}
    (env : Env) (h : (p, some v) ∈ ks) :
    (lookupEnv (applyApiKeys ks env) (apiKeyEnvName p)).isSome := by
  induction ks generalizing env with
  | nil => cases h
  | cons kv rest ih =>
    obtain ⟨q, ov⟩ := kv
    rcases List.mem_cons.mp h with heq | hmem
    · cases heq
      simp only [applyApiKeys]
      exact applyApiKeys_isSome (lookupEnv_setEnvIfAbsent_self _ _)
    · cases ov with
      | none =>
        simp only [applyApiKeys]
        exact ih _ hmem
      | some w =>
        simp only [applyApiKeys]
        exact ih _ hmem

theorem applyApiKeys_of_allPresent {ks : List (String × Option String)} {env : Env}
    (h : ∀ p v, (p, some v) ∈ ks → (lookupEnv env (apiKeyEnvName p)).isSome) :
    applyApiKeys ks env = env := by
  induction ks with
  | nil => rfl
  | cons kv rest ih =>
    obtain ⟨q, ov⟩ := kv
    cases ov with
    | none =>
      simp only [applyApiKeys]
      exact ih fun p v hm => h p v (List.mem_cons_of_mem _ hm)
    | some w =>
      simp only [applyApiKeys]
      rw [setEnvIfAbsent_of_isSome _ (h q w (List.mem_cons_self _ _))]
      exact ih fun p v hm => h p v (List.mem_cons_of_mem _ hm)

theorem applyApiKeys_append (l₁ l₂ : List (String × Option String)) (env : Env) :
    applyApiKeys (l₁ ++ l₂) env = applyApiKeys l₂ (applyApiKeys l₁ env) := by
  induction l₁ generalizing env with
  | nil => rfl
  | cons kv rest ih =>
    obtain ⟨q, ov⟩ := kv
    cases ov with
    | none =>
      simp only [List.cons_append, applyApiKeys]
      exact ih env
    | some w =>
      simp only [List.cons_append, applyApiKeys]
      exact ih _

theorem applyApiKeys_lookup_none {ks : List (String × Option String)} {env : Env}
    {key : String} (h : lookupEnv env key = none)
    (hne : ∀ q w, (q, some w) ∈ ks → apiKeyEnvName q ≠ key) :
    lookupEnv (applyApiKeys ks env) key = none := by
  induction ks generalizing env with
  | nil => exact h
  | cons kv rest ih =>
    obtain ⟨q, ov⟩ := kv
    cases ov with
    | none =>
      simp only [applyApiKeys]
      exact ih h fun r w hm => hne r w (List.mem_cons_of_mem _ hm)
    | some w =>
      simp only [applyApiKeys]
      exact ih (lookupEnv_setEnvIfAbsent_ne _ (hne q w (List.mem_cons_self _ _)) h)
        fun r u hm => hne r u (List.mem_cons_of_mem _ hm)

/-! Helper lemmas about the settings pass, mirrors of the api_keys pass. -/

theorem applySettings_lookup_some {ss : List (String × String)} {env : Env}
    {key x : String} (h : lookupEnv env key = some x) :
    lookupEnv (applySettings ss env) key = some x := by
  induction ss generalizing env with
  | nil => exact h
  | cons kv rest ih =>
    obtain ⟨k, v⟩ := kv
    simp only [applySettings]
    exact ih (lookupEnv_setEnvIfAbsent_some _ _ h)

theorem applySettings_isSome {ss : List (String × String)} {env : Env}
    {key : String} (h : (lookupEnv env key).isSome) :
    (lookupEnv (applySettings ss env) key).isSome := by
  obtain ⟨x, hx⟩ := Option.isSome_iff_exists.mp h
  rw [applySettings_lookup_some hx]
  rfl

theorem applySettings_mem_isSome {ss : List (String × String)} {k v : String}
    (env : Env) (h : (k, v) ∈ ss) :
    (lookupEnv (applySettings ss env) (upper k)).isSome := by
  induction ss generalizing env with
  | nil => cases h
  | cons kv rest ih =>
    obtain ⟨q, w⟩ := kv
    rcases List.mem_cons.mp h with heq | hmem
    · cases heq
      simp only [applySettings]
      exact applySettings_isSome (lookupEnv_setEnvIfAbsent_self _ _)
    · simp only [applySettings]
      exact ih _ hmem

theorem applySettings_of_allPresent {ss : List (String × String)} {env : Env}
    (h : ∀ k v, (k, v) ∈ ss → (lookupEnv env (upper k)).isSome) :
    applySettings ss env = env := by
  induction ss with
  | nil => rfl
  | cons kv rest ih =>
    obtain ⟨q, w⟩ := kv
    simp only [applySettings]
    rw [setEnvIfAbsent_of_isSome _ (h q w (List.mem_cons_self _ _))]
    exact ih fun k v hm => h k v (List.mem_cons_of_mem _ hm)

theorem applySettings_append (l₁ l₂ : List (String × String)) (env : Env) :
    applySettings (l₁ ++ l₂) env = applySettings l₂ (applySettings l₁ env) := by
  induction l₁ generalizing env with
  | nil => rfl
  | cons kv rest ih =>
    obtain ⟨q, w⟩ := kv
    simp only [List.cons_append, applySettings]
    exact ih _

theorem applySettings_lookup_none {ss : List (String × String)} {env : Env}
    {key : String} (h : lookupEnv env key = none)
    (hne : ∀ q w, (q, w) ∈ ss → upper q ≠ key) :
    lookupEnv (applySettings ss env) key = none := by
  induction ss generalizing env with
  | nil => exact h
  | cons kv rest ih =>
    obtain ⟨q, w⟩ := kv
    simp only [applySettings]
    exact ih (lookupEnv_setEnvIfAbsent_ne _ (hne q w (List.mem_cons_self _ _)) h)
      fun r u hm => hne r u (List.mem_cons_of_mem _ hm)

/-- Non-override property lifted to the whole configuration application. -/
theorem apply_config_lookup_some {cfg : Config} {env : Env} {key x : String}
    (h : lookupEnv env key = some x) :
    lookupEnv (apply_config cfg env) key = some x := by
  rw [apply_config]
  exact applySettings_lookup_some (applyApiKeys_lookup_some h)

/-- Null-valued entries contribute nothing: filtering them out of the
api_keys section leaves the pass unchanged. -/
theorem applyApiKeys_filter (ks : List (String × Option String)) (env : Env) :
    applyApiKeys (ks.filter fun kv => kv.2.isSome) env = applyApiKeys ks env := by
  induction ks generalizing env with
  | nil => rfl
  | cons kv rest ih =>
    obtain ⟨q, ov⟩ := kv
    cases ov with
    | none => exact ih env
    | some w => exact ih _

/-- C1: an environment variable of the form PROVIDER_API_KEY that is
already set to x before apply_config runs still has value x afterwards,
for every configuration (pre-existing values are never overridden). -/
theorem apply_config_preserves_existing_api_key (cfg : Config) (env : Env) (p x : String)
    (h : lookupEnv env (apiKeyEnvName p) = some x) :
    lookupEnv (apply_config cfg env) (apiKeyEnvName p) = some x :=
  apply_config_lookup_some h

theorem apply_config_preserves_existing_api_key_witness :
    lookupEnv [(apiKeyEnvName "gemini", "existing-key")] (apiKeyEnvName "gemini") =
      some "existing-key" ∧
    lookupEnv (apply_config ⟨some [("gemini", some "config-key")], none⟩
      [(apiKeyEnvName "gemini", "existing-key")]) (apiKeyEnvName "gemini") =
      some "existing-key" :=
  ⟨by decide,
   apply_config_preserves_existing_api_key ⟨some [("gemini", some "config-key")], none⟩
     [(apiKeyEnvName "gemini", "existing-key")] "gemini" "existing-key" (by decide)⟩

/-- C2, counterexample to the claim as stated: with api_keys mapping
provider A to first and provider a to second, both target A_API_KEY; with
the variable absent beforehand, the entry for a does not win, so the
variable does not end up equal to the value mapped from a. -/
theorem apply_config_api_key_shadowed_cex :
    lookupEnv (apply_config ⟨some [("A", some "first"), ("a", some "second")], none⟩ [])
      (apiKeyEnvName "a") = some "first" ∧
    lookupEnv (apply_config ⟨some [("A", some "first"), ("a", some "second")], none⟩ [])
      (apiKeyEnvName "a") ≠ some "second" := by
  decide

/-- C2, amended: if api_keys contains an entry mapping p to non-null v,
the target variable is absent from the environment, and no earlier
api_keys entry with a non-null value targets the same variable name, then
after apply_config the variable equals v. -/
theorem apply_config_sets_absent_api_key (cfg : Config) (env : Env) (p v : String)
    (ks₁ ks₂ : List (String × Option String))
    (hks : cfg.api_keys = some (ks₁ ++ (p, some v) :: ks₂))
    (hearlier : ∀ q w, (q, some w) ∈ ks₁ → apiKeyEnvName q ≠ apiKeyEnvName p)
    (habs : lookupEnv env (apiKeyEnvName p) = none) :
    lookupEnv (apply_config cfg env) (apiKeyEnvName p) = some v := by
  rw [apply_config, hks]
  simp only [Option.getD_some]
  rw [applyApiKeys_append]
  have h1 : lookupEnv (applyApiKeys ks₁ env) (apiKeyEnvName p) = none :=
    applyApiKeys_lookup_none habs hearlier
  simp only [applyApiKeys]
  exact applySettings_lookup_some
    (applyApiKeys_lookup_some (lookupEnv_setEnvIfAbsent_absent v h1))

theorem apply_config_sets_absent_api_key_witness :
    lookupEnv ([] : Env) (apiKeyEnvName "gemini") = none ∧
    lookupEnv (apply_config ⟨some [("gemini", some "k1")], none⟩ [])
      (apiKeyEnvName "gemini") = some "k1" :=
  ⟨rfl,
   apply_config_sets_absent_api_key ⟨some [("gemini", some "k1")], none⟩ [] "gemini" "k1"
     [] [] rfl (fun _ _ h => absurd h (List.not_mem_nil _)) rfl⟩

/-- C3, counterexample to the claim as stated: settings mapping key A to
first and key a to second both target variable A; with A absent
beforehand, the entry for a does not win, so the variable does not end up
equal to the value mapped from a. -/
theorem apply_config_setting_shadowed_cex :
    lookupEnv (apply_config ⟨none, some [("A", "first"), ("a", "second")]⟩ [])
      (upper "a") = some "first" ∧
    lookupEnv (apply_config ⟨none, some [("A", "first"), ("a", "second")]⟩ [])
      (upper "a") ≠ some "second" := by
  decide

/-- C3, amended: if settings contains an entry mapping s to v, no non-null
api_keys entry and no earlier settings entry targets the variable named
uppercase of s, then: when that variable is absent beforehand it equals v
after apply_config, and when it is present its prior value is unchanged
(the second part holds without the collision hypotheses doing any work). -/
theorem apply_config_sets_absent_setting (cfg : Config) (env : Env) (s v : String)
    (ss₁ ss₂ : List (String × String))
    (hss : cfg.settings = some (ss₁ ++ (s, v) :: ss₂))
    (hapi : ∀ q w, (q, some w) ∈ cfg.api_keys.getD [] → apiKeyEnvName q ≠ upper s)
    (hearlier : ∀ q w, (q, w) ∈ ss₁ → upper q ≠ upper s) :
    (lookupEnv env (upper s) = none →
      lookupEnv (apply_config cfg env) (upper s) = some v) ∧
    ∀ x, lookupEnv env (upper s) = some x →
      lookupEnv (apply_config cfg env) (upper s) = some x := by
  constructor
  · intro habs
    rw [apply_config, hss]
    simp only [Option.getD_some]
    rw [applySettings_append]
    have h0 : lookupEnv (applyApiKeys (cfg.api_keys.getD []) env) (upper s) = none :=
      applyApiKeys_lookup_none habs hapi
    have h1 : lookupEnv (applySettings ss₁ (applyApiKeys (cfg.api_keys.getD []) env))
        (upper s) = none :=
      applySettings_lookup_none h0 hearlier
    simp only [applySettings]
    exact applySettings_lookup_some (lookupEnv_setEnvIfAbsent_absent v h1)
  · intro x hx
    exact apply_config_lookup_some hx

theorem apply_config_sets_absent_setting_witness :
    lookupEnv (apply_config ⟨none, some [("log_level", "DEBUG")]⟩ [])
      (upper "log_level") = some "DEBUG" ∧
    lookupEnv (apply_config ⟨none, some [("log_level", "DEBUG")]⟩
      [(upper "log_level", "prior")]) (upper "log_level") = some "prior" :=
  ⟨(apply_config_sets_absent_setting ⟨none, some [("log_level", "DEBUG")]⟩ []
      "log_level" "DEBUG" [] [] rfl
      (fun _ _ h => absurd h (List.not_mem_nil _))
      (fun _ _ h => absurd h (List.not_mem_nil _))).1 rfl,
   (apply_config_sets_absent_setting ⟨none, some [("log_level", "DEBUG")]⟩
      [(upper "log_level", "prior")] "log_level" "DEBUG" [] [] rfl
      (fun _ _ h => absurd h (List.not_mem_nil _))
      (fun _ _ h => absurd h (List.not_mem_nil _))).2 "prior" (by decide)⟩

/-- C6, counterexample to the claim as stated: a configuration missing
only the api_keys section does not leave the environment unchanged when
its settings section is non-empty. -/
theorem apply_config_missing_section_cex :
    apply_config ⟨none, some [("a", "x")]⟩ [] ≠ [] := by
  decide

/-- C6, amended: apply_config is total on every documented shape;
null-valued api_keys entries contribute nothing (filtering them out
changes nothing); the empty configuration leaves every environment
unchanged; and a missing section behaves exactly like an empty section. -/
theorem apply_config_tolerates_degenerate_config :
    (∀ (env : Env) ks, applyApiKeys ks env =
      applyApiKeys (ks.filter fun kv => kv.2.isSome) env) ∧
    (∀ env : Env, apply_config ⟨none, none⟩ env = env) ∧
    (∀ (env : Env) s, apply_config ⟨none, s⟩ env = apply_config ⟨some [], s⟩ env) ∧
    (∀ (env : Env) ks, apply_config ⟨ks, none⟩ env = apply_config ⟨ks, some []⟩ env) :=
  ⟨fun env ks => (applyApiKeys_filter ks env).symm,
   fun _ => rfl, fun _ _ => rfl, fun _ _ => rfl⟩

/-- C7: apply_config is idempotent on the environment; running it a second
time with the same configuration changes nothing, because every variable
the second run could write was already present after the first run. -/
theorem apply_config_idempotent (cfg : Config) (env : Env) :
    apply_config cfg (apply_config cfg env) = apply_config cfg env := by
  have hks : applyApiKeys (cfg.api_keys.getD []) (apply_config cfg env) =
      apply_config cfg env :=
    applyApiKeys_of_allPresent fun p v hm => by
      rw [apply_config]
      exact applySettings_isSome (applyApiKeys_mem_isSome env hm)
  have hss : applySettings (cfg.settings.getD []) (apply_config cfg env) =
      apply_config cfg env :=
    applySettings_of_allPresent fun k v hm => by
      rw [apply_config]
      exact applySettings_mem_isSome _ hm
  rw [apply_config, hks, hss]

/-- C4: a missing file, an unreadable file, or content the parser rejects
all make load_config_file return the empty mapping; the function is total,
so no failure escapes it. -/
theorem load_config_file_failure_empty (parse : String → Option Json) (r : ReadResult)
    (h : r = ReadResult.missing ∨ r = ReadResult.unreadable ∨
      ∃ s, r = ReadResult.content s ∧ parse s = none) :
    load_config_file parse r = Json.obj [] := by
  rcases h with rfl | rfl | ⟨s, rfl, hs⟩
  · rfl
  · rfl
  · simp only [load_config_file, hs]

theorem load_config_file_failure_empty_witness :
    ((ReadResult.content "not json" : ReadResult) = ReadResult.missing ∨
      (ReadResult.content "not json" : ReadResult) = ReadResult.unreadable ∨
      ∃ s, (ReadResult.content "not json" : ReadResult) = ReadResult.content s ∧
        (fun _ : String => (none : Option Json)) s = none) ∧
    load_config_file (fun _ => none) (ReadResult.content "not json") = Json.obj [] :=
  ⟨Or.inr (Or.inr ⟨"not json", rfl, rfl⟩),
   load_config_file_failure_empty (fun _ => none) (ReadResult.content "not json")
     (Or.inr (Or.inr ⟨"not json", rfl, rfl⟩))⟩

/-- C5: when the parser accepts the file content, load_config_file returns
exactly the parsed structure, with no validation, filtering, or
transformation applied to it. -/
theorem load_config_file_valid_identity (parse : String → Option Json) (s : String)
    (j : Json) (h : parse s = some j) :
    load_config_file parse (ReadResult.content s) = j := by
  simp only [load_config_file, h]

theorem load_config_file_valid_identity_witness :
    (fun _ : String => some (Json.obj [("api_keys", Json.obj [("gemini", Json.str "k")])]))
      "cfg" = some (Json.obj [("api_keys", Json.obj [("gemini", Json.str "k")])]) ∧
    load_config_file
      (fun _ => some (Json.obj [("api_keys", Json.obj [("gemini", Json.str "k")])]))
      (ReadResult.content "cfg") =
      Json.obj [("api_keys", Json.obj [("gemini", Json.str "k")])] :=
  ⟨rfl,
   load_config_file_valid_identity
     (fun _ => some (Json.obj [("api_keys", Json.obj [("gemini", Json.str "k")])]))
     "cfg" (Json.obj [("api_keys", Json.obj [("gemini", Json.str "k")])]) rfl⟩

/-- C8: main_entry gives exit status 0 on normal completion and on an
interruption signal; on an import failure it emits the diagnostic lines,
which include the module search path and the current working directory,
and gives exit status 1; any other exception raised by the external main
routine propagates uncaught out of main_entry. -/
theorem main_entry_exit_codes (sysPath : List String) (parentDir cwd msg : String)
    (r : RunOutcome) :
    (main_entry sysPath parentDir cwd .success .normal).2 = .exitCode 0 [] ∧
    (main_entry sysPath parentDir cwd .success .keyboardInterrupt).2 = .exitCode 0 [] ∧
    ((main_entry sysPath parentDir cwd (.failure msg) r).2 =
      .exitCode 1 (importErrorDiagnostics msg (updateSysPath sysPath parentDir) cwd) ∧
      ("Python path: " ++ String.intercalate ", " (updateSysPath sysPath parentDir)) ∈
        importErrorDiagnostics msg (updateSysPath sysPath parentDir) cwd ∧
      ("Current working directory: " ++ cwd) ∈
        importErrorDiagnostics msg (updateSysPath sysPath parentDir) cwd) ∧
    (main_entry sysPath parentDir cwd .success (.raised msg)).2 = .uncaught msg := by
  refine ⟨rfl, rfl, ⟨rfl, ?_, ?_⟩, rfl⟩
  · simp [importErrorDiagnostics]
  · simp [importErrorDiagnostics]

/-- C9: the ImportError handler of main_entry is not limited to the import
statement; an ImportError raised while the external main routine runs is
also caught, prints the same diagnostics, and gives exit status 1. -/
theorem main_entry_catches_late_import_error (sysPath : List String)
    (parentDir cwd msg : String) :
    (main_entry sysPath parentDir cwd .success (.importError msg)).2 =
      .exitCode 1 (importErrorDiagnostics msg (updateSysPath sysPath parentDir) cwd) :=
  rfl

/-- C10: main_entry updates the module search path exactly through
updateSysPath, which prepends the parent directory only when it is not
already present; the update is idempotent, adds at most one entry, and
never introduces a duplicate occurrence. -/
theorem main_entry_syspath_idempotent (sysPath : List String) (parentDir cwd : String)
    (i : ImportResult) (r : RunOutcome) :
    (main_entry sysPath parentDir cwd i r).1 = updateSysPath sysPath parentDir ∧
    (parentDir ∉ sysPath → updateSysPath sysPath parentDir = parentDir :: sysPath) ∧
    (parentDir ∈ sysPath → updateSysPath sysPath parentDir = sysPath) ∧
    updateSysPath (updateSysPath sysPath parentDir) parentDir =
      updateSysPath sysPath parentDir ∧
    (updateSysPath sysPath parentDir).length ≤ sysPath.length + 1 ∧
    List.count parentDir (updateSysPath sysPath parentDir) =
      max 1 (List.count parentDir sysPath) := by
  refine ⟨?_, ?_, ?_, ?_, ?_, ?_⟩
  · cases i with
    | failure msg => rfl
    | success => cases r <;> rfl
  · intro h
    rw [updateSysPath, if_neg h]
  · intro h
    rw [updateSysPath, if_pos h]
  · by_cases h : parentDir ∈ sysPath
    · have he : updateSysPath sysPath parentDir = sysPath := by
        rw [updateSysPath, if_pos h]
      rw [he]
      exact he
    · have he : updateSysPath sysPath parentDir = parentDir :: sysPath := by
        rw [updateSysPath, if_neg h]
      rw [he, updateSysPath, if_pos (List.mem_cons_self _ _)]
  · rw [updateSysPath]
    split
    · exact Nat.le_succ _
    · rw [List.length_cons]
  · by_cases h : parentDir ∈ sysPath
    · rw [updateSysPath, if_pos h]
      have h1 : 0 < List.count parentDir sysPath := List.count_pos_iff.mpr h
      omega
    · rw [updateSysPath, if_neg h, List.count_cons_self,
        List.count_eq_zero.mpr h]
      decide

theorem main_entry_syspath_idempotent_witness :
    ("b" ∉ ["a"] ∧ updateSysPath ["a"] "b" = ["b", "a"]) ∧
    ("a" ∈ ["a"] ∧ updateSysPath ["a"] "a" = ["a"]) :=
  ⟨⟨by decide,
    (main_entry_syspath_idempotent ["a"] "b" "cwd" .success .normal).2.1 (by decide)⟩,
   ⟨by decide,
    (main_entry_syspath_idempotent ["a"] "a" "cwd" .success .normal).2.2.1 (by decide)⟩⟩

end ZenMCP
